import Mathlib

/-!
Verification development for the pdf-interpreter repository
(src/extract_pdf.py and src/generate_notes.py), as a shallow embedding
in Lean 4.  Python strings are modelled by Lean `String` (a list of
unicode code points, matching Python semantics where `len` counts code
points); Python `str.split(sep)` and `str.strip()` are modelled by the
executable functions `pySplit` and `pyStrip` below; Python floats are
modelled by exact rationals `ℚ`; OCR coordinates are modelled over an
arbitrary linear ordered ring so that statements cover `ℚ` (the float
model) and witnesses can evaluate over `ℤ`.
-/

namespace PdfInterpreter

/-- Model of the set of characters stripped by Python str.strip():
ASCII whitespace including vertical tab and form feed.  (Python also
strips the rare non-ASCII unicode space characters; none of the texts
handled here contain them.) -/
def pyIsSpace (c : Char) : Bool :=
  c.isWhitespace || c == '\x0b' || c == '\x0c'

/-- Fuel-driven scanner implementing Python str.split(sep) over
character lists: repeatedly cut at the leftmost occurrence of the
(non-empty) separator.  Fuel equal to the length of the input is always
sufficient, since every step consumes at least one character. -/
def pySplitChars (sep : List Char) : Nat → List Char → List Char → List (List Char)
  | 0, rest, acc => [acc.reverse ++ rest]
  | _fuel+1, [], acc => [acc.reverse]
  | fuel+1, c :: rest, acc =>
    if sep.isPrefixOf (c :: rest) then
      acc.reverse :: pySplitChars sep fuel ((c :: rest).drop sep.length) []
    else
      pySplitChars sep fuel rest (c :: acc)

/-- Python `s.split(sep)` for a non-empty separator `sep`. -/
def pySplit (s sep : String) : List String :=
  (pySplitChars sep.data s.data.length s.data []).map List.asString

/-- Python `s.strip()`: remove leading and trailing whitespace. -/
def pyStrip (s : String) : String :=
  (((s.data.dropWhile pyIsSpace).reverse.dropWhile pyIsSpace).reverse).asString

/-! ## String helper lemmas -/

lemma str_eq_empty_of_length {s : String} (h : s.length = 0) : s = "" := by
  cases s with
  | mk data =>
    cases data with
    | nil => rfl
    | cons c cs => simp [String.length] at h

lemma str_append_ne_empty {s : String} (t : String) (h : s ≠ "") : s ++ t ≠ "" := by
  intro hcontra
  apply h
  apply str_eq_empty_of_length
  have hlen := congrArg String.length hcontra
  rw [String.length_append] at hlen
  have h0 : ("" : String).length = 0 := rfl
  omega

lemma str_foldl_append (l : List String) :
    ∀ a : String, l.foldl (· ++ ·) a = a ++ l.foldl (· ++ ·) "" := by
  induction l with
  | nil => intro a; simp [List.foldl]
  | cons b t ih =>
    intro a
    simp only [List.foldl]
    rw [ih (a ++ b), ih ("" ++ b)]
    simp [String.append_assoc]

lemma str_join_nil : String.join ([] : List String) = "" := rfl

lemma str_join_cons (a : String) (l : List String) :
    String.join (a :: l) = a ++ String.join l := by
  simp only [String.join, List.foldl]
  rw [str_foldl_append l ("" ++ a)]
  rfl

lemma str_join_singleton (a : String) : String.join [a] = a := by
  rw [str_join_cons, str_join_nil, String.append_empty]

lemma str_join_append_singleton (l : List String) (p : String) :
    String.join (l ++ [p]) = String.join l ++ p := by
  induction l with
  | nil => simp [str_join_cons, str_join_nil, String.append_empty]
  | cons a t ih =>
    rw [List.cons_append, str_join_cons, str_join_cons, ih, String.append_assoc]

lemma str_join_ne_empty_of_head {q : String} (l : List String) (h : q ≠ "") :
    String.join (q :: l) ≠ "" := by
  rw [str_join_cons]
  exact str_append_ne_empty _ h

lemma str_intercalate_singleton (s a : String) : String.intercalate s [a] = a := rfl

/-! ## extract_pdf.py: process_ocr_result (line reconstruction)

A PaddleOCR result entry `box` carries a quadrilateral of corner
points and the recognised text; the source reads `box[1][0]` (the
text) and `box[0][0][1]` (the y coordinate of the first corner
point).  `TextFragment` models exactly the data the source reads,
plus the x coordinate of the same corner (which the source never
uses). -/

structure TextFragment (α : Type) where
  text : String
  anchor_x : α
  anchor_y : α
  deriving DecidableEq, Repr

variable {α : Type} [LinearOrderedRing α]

/-- Model of `sorted(result, key=lambda x: x[0][0][1])`.  Python sorted
is a stable sort; insertionSort is also stable, and a stable sort
ascending on the same key is unique, so the two agree. -/
def sortFrags (l : List (TextFragment α)) : List (TextFragment α) :=
  List.insertionSort (fun a b => a.anchor_y ≤ b.anchor_y) l

/-- The grouping loop of process_ocr_result after the first fragment
has opened the current line: `current_y` stays the y of the fragment
that opened the line; a fragment within `y_threshold` of it joins the
line, otherwise the line is closed and a new one opened. -/
def lineClustersAux (y_threshold : α) :
    List (TextFragment α) → List String → α → List (List String)
  | [], current_line, _ => [current_line]
  | f :: fs, current_line, current_y =>
    if |f.anchor_y - current_y| ≤ y_threshold then
      lineClustersAux y_threshold fs (current_line ++ [f.text]) current_y
    else
      current_line :: lineClustersAux y_threshold fs [f.text] f.anchor_y

/-- The lines (`text_lines`, each still a list of fragment texts)
produced by the loop of process_ocr_result on an already sorted
fragment list.  On entry `current_y` is None and `current_line` is
empty; the first fragment sets both, and an empty input yields no
lines (the trailing `if current_line` guard fails). -/
def lineClusters (y_threshold : α) : List (TextFragment α) → List (List String)
  | [] => []
  | f :: fs => lineClustersAux y_threshold fs [f.text] f.anchor_y

/-- Model of process_ocr_result: sort by the anchor y coordinate,
group into lines with `y_threshold = 10`, join each line with a single
space and the lines with a blank-line separator. -/
def process_ocr_result (result : List (TextFragment α)) : String :=
  String.intercalate "\n\n"
    ((lineClusters (10 : α) (sortFrags result)).map (String.intercalate " "))

/-! ## generate_notes.py: NotesGenerator

The tokenizer slot of the generator is `some enc` when tiktoken
loaded (`enc` the external encoder, modelled as an arbitrary function
to token counts) and `none` when loading failed. -/

/-- Model of NotesGenerator.count_tokens: the tokenizer when present,
otherwise the fallback estimate `len(text) // 4` (Python `len` on a
string counts code points, as does `String.length`). -/
def count_tokens (tokenizer : Option (String → Nat)) (text : String) : Nat :=
  match tokenizer with
  | some enc => enc text
  | none => text.length / 4

/-- The loop of NotesGenerator.chunk_text over the page list, carrying
the accumulator string `current_chunk`.  `limit` is
`context_window - 1000`. -/
def chunkLoop (tokenizer : Option (String → Nat)) (limit : Int) :
    List String → String → List String
  | [], current_chunk => if current_chunk = "" then [] else [current_chunk]
  | page :: pages, current_chunk =>
    if pyStrip page = "" then chunkLoop tokenizer limit pages current_chunk
    else if (count_tokens tokenizer (current_chunk ++ page) : Int) < limit then
      chunkLoop tokenizer limit pages (current_chunk ++ page)
    else if current_chunk = "" then
      chunkLoop tokenizer limit pages page
    else
      current_chunk :: chunkLoop tokenizer limit pages page

/-- Model of NotesGenerator.chunk_text: split the text at the literal
delimiter "-------\n" and greedily pack the non-blank parts into
chunks below `context_window - 1000` tokens. -/
def chunk_text (tokenizer : Option (String → Nat)) (context_window : Int)
    (text : String) : List String :=
  chunkLoop tokenizer (context_window - 1000) (pySplit text "-------\n") ""

/-- The same loop as `chunkLoop`, but keeping each chunk as the list
of pages it concatenates (used to state which pages underlie each
chunk; `chunkLoop` is recovered by joining, see the C1 and C2
theorems). -/
def chunkPagesLoop (tokenizer : Option (String → Nat)) (limit : Int) :
    List String → List String → List (List String)
  | [], current => if current = [] then [] else [current]
  | page :: pages, current =>
    if pyStrip page = "" then chunkPagesLoop tokenizer limit pages current
    else if (count_tokens tokenizer (String.join current ++ page) : Int) < limit then
      chunkPagesLoop tokenizer limit pages (current ++ [page])
    else if current = [] then
      chunkPagesLoop tokenizer limit pages [page]
    else
      current :: chunkPagesLoop tokenizer limit pages [page]

/-- chunk_text with chunks kept as page lists. -/
def chunkTextPages (tokenizer : Option (String → Nat)) (context_window : Int)
    (text : String) : List (List String) :=
  chunkPagesLoop tokenizer (context_window - 1000) (pySplit text "-------\n") []

/-- The usage object of a successful chat-completions response. -/
structure Usage where
  prompt_tokens : Nat
  completion_tokens : Nat
  total_tokens : Nat
  deriving DecidableEq, Repr

/-- The usage_stats dictionary of NotesGenerator (floats modelled as
exact rationals). -/
structure UsageStats where
  total_tokens : Nat
  prompt_tokens : Nat
  completion_tokens : Nat
  total_cost : ℚ
  api_calls : Nat
  last_update : ℚ
  deriving DecidableEq, Repr

/-- usage_stats as initialised in NotesGenerator.__init__; `t0` is the
value of time.time() at startup. -/
def initUsageStats (t0 : ℚ) : UsageStats :=
  { total_tokens := 0, prompt_tokens := 0, completion_tokens := 0,
    total_cost := 0, api_calls := 0, last_update := t0 }

/-- The usage_stats updates performed by call_llm_api on a 200
response: add the per-call token counts, increment api_calls, and add
the per-call cost `(total_tokens / 1_000_000) * price_per_1m_tokens`. -/
def recordUsage (price_per_1m_tokens : ℚ) (usage : Usage) (s : UsageStats) : UsageStats :=
  { s with
    prompt_tokens := s.prompt_tokens + usage.prompt_tokens,
    completion_tokens := s.completion_tokens + usage.completion_tokens,
    total_tokens := s.total_tokens + usage.total_tokens,
    api_calls := s.api_calls + 1,
    total_cost := s.total_cost +
      ((usage.total_tokens : ℚ) / 1000000) * price_per_1m_tokens }

/-- An HTTP response to the chat-completions POST, carrying the pieces
call_llm_api reads: the status code, the generated content
(`choices[0].message.content`), the usage object, and the raw body
text used in error messages. -/
structure HttpResponse where
  status_code : Nat
  content : String
  usage : Usage
  text : String
  deriving DecidableEq, Repr

/-- Outcome of the network call made by call_llm_api: a response, a
timeout (requests.exceptions.Timeout), or another request exception. -/
inductive NetOutcome where
  | timeout
  | requestError (msg : String)
  | response (r : HttpResponse)
  deriving DecidableEq, Repr

/-- Model of NotesGenerator.call_llm_api given the network outcome for
the request: on a 200 response record usage and return the content; on
any other status, on timeout, or on a request exception raise (return
`.error`) with the corresponding message, leaving usage_stats as they
were. -/
def call_llm_api (price_per_1m_tokens : ℚ) (net : NetOutcome) (s : UsageStats) :
    Except String String × UsageStats :=
  match net with
  | .timeout => (.error "API请求超时", s)
  | .requestError m => (.error ("API请求异常: " ++ m), s)
  | .response r =>
    if r.status_code = 200 then
      (.ok r.content, recordUsage price_per_1m_tokens r.usage s)
    else
      (.error ("API调用失败 (状态码: " ++ toString r.status_code ++ "): " ++ r.text), s)

/-- The result component of call_llm_api does not depend on the usage
statistics; this is that component as a function of the network
outcome alone. -/
def apiResult (price_per_1m_tokens : ℚ) (net : NetOutcome) : Except String String :=
  (call_llm_api price_per_1m_tokens net (initUsageStats 0)).1

/-- Model of NotesGenerator.create_prompt: the deterministic prompt
template with the topic and page text interpolated. -/
def create_prompt (text topic : String) : String :=
  "作为一位专业的技术分析专家，请帮助我深入理解以下内容。\n\n主题方向：" ++ topic ++
  "\n\n源内容：\n" ++ text ++
  "\n\n请按照以下结构进行内容分析和总结， 需避免单纯的列表罗列：\n\n" ++
  "### 概念解释\n请提取并解释文中最关键的2-3个技术概念或术语，确保解释准确且易于理解。每个概念解释应包含：\n\n" ++
  "### 技术挑战\n分析文中描述的主要技术挑战，以及传统解决方案的局限性\n\n" ++
  "### 解决方案\n详细分析文中提出的解决方案：\n- 核心技术架构\n- 关键实现方法\n\n" ++
  "### 方案优势\n系统总结该方案的优势\n\n" ++
  "### 最佳实践\n总结相关领域的实践经验\n\n" ++
  "要求：\n- 分析要准确、客观，避免主观臆测\n- 重点突出技术本质和创新点\n" ++
  "- 保持专业性的同时确保表述清晰\n- 适当补充相关领域的专业见解\n" ++
  "- 每个部分都需要完整的语段阐述，而不是简单列举\n\n" ++
  "请基于文本内容进行分析，如有不足之处，可以基于专业知识适当补充，但要明确区分原文信息和补充信息。\n"

/-- The error handling strategies of process_file. -/
inductive ErrorStrategy where
  | skip
  | abort
  deriving DecidableEq, Repr

/-- Default of the error_strategy parameter of process_file (and of
the --error-strategy command line option). -/
def defaultErrorStrategy : ErrorStrategy := .skip

/-- The markdown block returned by process_single_page on success:
the five note fragments joined with a newline. -/
def process_single_page_note (page_num : Nat) (page_text response : String) : String :=
  String.intercalate "\n"
    ["# Page " ++ toString page_num ++ "\n",
     "## 原文\n",
     page_text ++ "\n\n",
     "## 内容解读\n",
     response ++ "\n\n"]

/-- Model of NotesGenerator.process_single_page: build the prompt,
call the model, and on success return the formatted note; an API
failure propagates (as `.error`). -/
def process_single_page (price_per_1m_tokens : ℚ) (net : String → NetOutcome)
    (page_num : Nat) (page_text topic : String) (s : UsageStats) :
    Except String String × UsageStats :=
  let r := call_llm_api price_per_1m_tokens (net (create_prompt page_text topic)) s
  (r.1.map (fun response => process_single_page_note page_num page_text response), r.2)

/-- The markdown block appended by process_file when a page fails
under the skip strategy: the original text and a 内容解读 section
holding the failure notice. -/
def errorNote (page_num : Nat) (page_text err : String) : String :=
  "# Page " ++ toString page_num ++ "\n\n" ++
  "## 原文\n" ++ (page_text ++ "\n\n") ++
  "## 内容解读\n" ++ ("生成失败: " ++ err ++ "\n\n")

/-- The page list of process_file: split the input at the literal
marker "### Page", drop the segment before the first marker, strip
each part and keep the non-blank ones. -/
def splitPagesMarker (text : String) : List String :=
  (((pySplit text "### Page").drop 1).map pyStrip).filter (fun p => p ≠ "")

/-- The per-page loop of process_file: `i` is the 1-based position in
the page list, `written` the content appended to the output file so
far.  The third component models how the run ends: `none` when the
loop completes, `some msg` when the abort strategy raises `msg` (which
main turns into a non-zero exit). -/
def processLoop (strategy : ErrorStrategy) (price_per_1m_tokens : ℚ)
    (net : String → NetOutcome) (topic : String) :
    List String → Nat → String → UsageStats → String × UsageStats × Option String
  | [], _, written, s => (written, s, none)
  | page :: pages, i, written, s =>
    match process_single_page price_per_1m_tokens net i page topic s with
    | (Except.ok note, s') =>
      processLoop strategy price_per_1m_tokens net topic pages (i + 1) (written ++ note) s'
    | (Except.error e, s') =>
      match strategy with
      | .abort =>
        (written, s',
          some ("由于错误策略设置为\x27abort\x27，停止处理。最后错误: " ++ e))
      | .skip =>
        processLoop strategy price_per_1m_tokens net topic pages (i + 1)
          (written ++ errorNote i page e) s'

/-- Model of NotesGenerator.process_file: split the input into pages
and run the per-page loop starting from an empty output file and the
startup usage statistics. -/
def process_file (strategy : ErrorStrategy) (price_per_1m_tokens : ℚ)
    (net : String → NetOutcome) (topic : String) (t0 : ℚ) (text : String) :
    String × UsageStats × Option String :=
  processLoop strategy price_per_1m_tokens net topic (splitPagesMarker text) 1 ""
    (initUsageStats t0)

/-- Model of the exit behaviour of main: an error propagating out of
process_file is caught and the process exits with status 1; otherwise
the run ends normally. -/
def mainExitCode (r : String × UsageStats × Option String) : Nat :=
  match r.2.2 with
  | some _ => 1
  | none => 0

/-- Concatenation of the successful notes for a list of pages paired
with the model response contents, numbering pages from `i` by
position. -/
def successNotesFrom (i : Nat) : List String → List String → String
  | page :: pages, c :: cs =>
    process_single_page_note i page c ++ successNotesFrom (i + 1) pages cs
  | _, _ => ""

/-- The note the skip strategy produces for the page at position `i`:
the success note on a 200 response, the failure block otherwise. -/
def skipNote (price_per_1m_tokens : ℚ) (net : String → NetOutcome) (topic : String)
    (i : Nat) (page : String) : String :=
  match apiResult price_per_1m_tokens (net (create_prompt page topic)) with
  | .ok response => process_single_page_note i page response
  | .error e => errorNote i page e

/-- Concatenation of the notes the skip strategy produces for a page
list, numbering pages from `i` by position. -/
def skipNotesFrom (price_per_1m_tokens : ℚ) (net : String → NetOutcome) (topic : String) :
    Nat → List String → String
  | _, [] => ""
  | i, page :: pages =>
    skipNote price_per_1m_tokens net topic i page ++
      skipNotesFrom price_per_1m_tokens net topic (i + 1) pages

/-! ## Theorems for the claims -/

/-- Claim C8 (amended): when no tokenizer is available, count_tokens
returns the number of characters (code points) of the text divided by
4 with integer division — not the byte length divided by 4 — and this
fallback is a total function (non-fatal degradation). -/
theorem c8_count_tokens_fallback (text : String) :
    count_tokens none text = text.length / 4 := rfl

/-- Claim C8, counterexample to the claim as stated: on the two-CJK
character string the fallback returns 0 while the byte length (6 in
UTF-8) divided by 4 is 1, so count_tokens does not compute the byte/4
estimate. -/
theorem c8_counterexample :
    count_tokens none "中中" = 0 ∧ "中中".utf8ByteSize / 4 = 1 ∧
    count_tokens none "中中" ≠ "中中".utf8ByteSize / 4 := by decide

/-- Claim C9: a call_llm_api invocation that raises (times out, hits a
request exception, or receives a non-200 status) leaves every field of
usage_stats exactly as it was: the returned statistics are the input
statistics. -/
theorem c9_failed_call_preserves_stats (price_per_1m_tokens : ℚ) (net : NetOutcome)
    (s : UsageStats)
    (hfail : (call_llm_api price_per_1m_tokens net s).1.isOk = false) :
    (call_llm_api price_per_1m_tokens net s).2 = s := by
  cases net with
  | timeout => rfl
  | requestError m => rfl
  | response r =>
    by_cases h : r.status_code = 200
    · exact absurd hfail (by simp [call_llm_api, h, Except.isOk, Except.toBool])
    · simp [call_llm_api, h]

/-- Claim C9, witness: a concrete timed-out call leaves the startup
statistics unchanged. -/
theorem c9_witness :
    (call_llm_api 1 NetOutcome.timeout (initUsageStats 0)).2 = initUsageStats 0 :=
  c9_failed_call_preserves_stats 1 NetOutcome.timeout (initUsageStats 0) rfl

/-- Claim C3 (code bug): on a document in the extraction output format
the split step of chunk_text finds no "-------\n" delimiter, so the
whole two-page document is one single unit and one single chunk — the
"### Page" markers of the input format are not recognised as page
delimiters. -/
theorem c3_chunk_text_delimiter_mismatch :
    pySplit "### Page 1\n\nA\n\n### Page 2\n\nB" "-------\n" =
      ["### Page 1\n\nA\n\n### Page 2\n\nB"] ∧
    chunk_text none 100000 "### Page 1\n\nA\n\n### Page 2\n\nB" =
      ["### Page 1\n\nA\n\n### Page 2\n\nB"] := by decide

lemma usage_foldl_stats (price_per_1m_tokens : ℚ) :
    ∀ (rs : List HttpResponse) (s : UsageStats), (∀ r ∈ rs, r.status_code = 200) →
      (rs.foldl (fun acc r => (call_llm_api price_per_1m_tokens (.response r) acc).2)
          s).prompt_tokens =
        s.prompt_tokens + (rs.map (fun r => r.usage.prompt_tokens)).sum ∧
      (rs.foldl (fun acc r => (call_llm_api price_per_1m_tokens (.response r) acc).2)
          s).completion_tokens =
        s.completion_tokens + (rs.map (fun r => r.usage.completion_tokens)).sum ∧
      (rs.foldl (fun acc r => (call_llm_api price_per_1m_tokens (.response r) acc).2)
          s).total_tokens =
        s.total_tokens + (rs.map (fun r => r.usage.total_tokens)).sum ∧
      (rs.foldl (fun acc r => (call_llm_api price_per_1m_tokens (.response r) acc).2)
          s).api_calls = s.api_calls + rs.length ∧
      (rs.foldl (fun acc r => (call_llm_api price_per_1m_tokens (.response r) acc).2)
          s).total_cost =
        s.total_cost +
          (((rs.map (fun r => r.usage.total_tokens)).sum : ℚ) / 1000000) *
            price_per_1m_tokens ∧
      (rs.foldl (fun acc r => (call_llm_api price_per_1m_tokens (.response r) acc).2)
          s).last_update = s.last_update := by
  intro rs
  induction rs with
  | nil => intro s _; simp
  | cons r rest ih =>
    intro s h
    have h200 : r.status_code = 200 := h r (List.mem_cons_self r rest)
    have hrest : ∀ x ∈ rest, x.status_code = 200 :=
      fun x hx => h x (List.mem_cons_of_mem r hx)
    obtain ⟨h1, h2, h3, h4, h5, h6⟩ :=
      ih (recordUsage price_per_1m_tokens r.usage s) hrest
    simp only [List.foldl_cons, call_llm_api, h200, if_pos] at *
    refine ⟨?_, ?_, ?_, ?_, ?_, ?_⟩
    · rw [h1]; simp [recordUsage]; omega
    · rw [h2]; simp [recordUsage]; omega
    · rw [h3]; simp [recordUsage]; omega
    · rw [h4]; simp [recordUsage]; omega
    · rw [h5]; simp [recordUsage]; ring
    · rw [h6]; simp [recordUsage]

/-- Claim C4: after N calls of call_llm_api each receiving a 200
response with usage (p_i, c_i, t_i), the usage statistics hold the
exact sums: prompt_tokens = Σp_i, completion_tokens = Σc_i,
total_tokens = Σt_i, api_calls = N, and total_cost =
(Σt_i / 1_000_000) · price_per_1m_tokens (float arithmetic modelled as
exact rationals). -/
theorem c4_usage_totals (price_per_1m_tokens t0 : ℚ) (rs : List HttpResponse)
    (h200 : ∀ r ∈ rs, r.status_code = 200) :
    (rs.foldl (fun acc r => (call_llm_api price_per_1m_tokens (.response r) acc).2)
        (initUsageStats t0)).prompt_tokens =
      (rs.map (fun r => r.usage.prompt_tokens)).sum ∧
    (rs.foldl (fun acc r => (call_llm_api price_per_1m_tokens (.response r) acc).2)
        (initUsageStats t0)).completion_tokens =
      (rs.map (fun r => r.usage.completion_tokens)).sum ∧
    (rs.foldl (fun acc r => (call_llm_api price_per_1m_tokens (.response r) acc).2)
        (initUsageStats t0)).total_tokens =
      (rs.map (fun r => r.usage.total_tokens)).sum ∧
    (rs.foldl (fun acc r => (call_llm_api price_per_1m_tokens (.response r) acc).2)
        (initUsageStats t0)).api_calls = rs.length ∧
    (rs.foldl (fun acc r => (call_llm_api price_per_1m_tokens (.response r) acc).2)
        (initUsageStats t0)).total_cost =
      (((rs.map (fun r => r.usage.total_tokens)).sum : ℚ) / 1000000) *
        price_per_1m_tokens := by
  obtain ⟨h1, h2, h3, h4, h5, _⟩ :=
    usage_foldl_stats price_per_1m_tokens rs (initUsageStats t0) h200
  refine ⟨?_, ?_, ?_, ?_, ?_⟩ <;>
    simp_all [initUsageStats]

/-- Claim C4, witness: one call with usage (1, 2, 3) at price 2 per
million tokens yields the expected statistics. -/
theorem c4_witness :
    ([(⟨200, "c", ⟨1, 2, 3⟩, ""⟩ : HttpResponse)].foldl
        (fun acc r => (call_llm_api 2 (.response r) acc).2)
        (initUsageStats 0)).prompt_tokens =
      ([(⟨200, "c", ⟨1, 2, 3⟩, ""⟩ : HttpResponse)].map
        (fun r => r.usage.prompt_tokens)).sum ∧
    ([(⟨200, "c", ⟨1, 2, 3⟩, ""⟩ : HttpResponse)].foldl
        (fun acc r => (call_llm_api 2 (.response r) acc).2)
        (initUsageStats 0)).completion_tokens =
      ([(⟨200, "c", ⟨1, 2, 3⟩, ""⟩ : HttpResponse)].map
        (fun r => r.usage.completion_tokens)).sum ∧
    ([(⟨200, "c", ⟨1, 2, 3⟩, ""⟩ : HttpResponse)].foldl
        (fun acc r => (call_llm_api 2 (.response r) acc).2)
        (initUsageStats 0)).total_tokens =
      ([(⟨200, "c", ⟨1, 2, 3⟩, ""⟩ : HttpResponse)].map
        (fun r => r.usage.total_tokens)).sum ∧
    ([(⟨200, "c", ⟨1, 2, 3⟩, ""⟩ : HttpResponse)].foldl
        (fun acc r => (call_llm_api 2 (.response r) acc).2)
        (initUsageStats 0)).api_calls =
      [(⟨200, "c", ⟨1, 2, 3⟩, ""⟩ : HttpResponse)].length ∧
    ([(⟨200, "c", ⟨1, 2, 3⟩, ""⟩ : HttpResponse)].foldl
        (fun acc r => (call_llm_api 2 (.response r) acc).2)
        (initUsageStats 0)).total_cost =
      ((([(⟨200, "c", ⟨1, 2, 3⟩, ""⟩ : HttpResponse)].map
        (fun r => r.usage.total_tokens)).sum : ℚ) / 1000000) * 2 :=
  c4_usage_totals 2 0 [⟨200, "c", ⟨1, 2, 3⟩, ""⟩] (by decide)

lemma lineClustersAux_all_close (thr : α) :
    ∀ (fs : List (TextFragment α)) (line : List String) (cy : α),
      (∀ f ∈ fs, |f.anchor_y - cy| ≤ thr) →
      lineClustersAux thr fs line cy = [line ++ fs.map TextFragment.text] := by
  intro fs
  induction fs with
  | nil => intro line cy _; simp [lineClustersAux]
  | cons f rest ih =>
    intro line cy h
    have hf : |f.anchor_y - cy| ≤ thr := h f (List.mem_cons_self f rest)
    simp only [lineClustersAux, if_pos hf]
    rw [ih (line ++ [f.text]) cy (fun g hg => h g (List.mem_cons_of_mem f hg))]
    simp

lemma lineClusters_single (thr : α) (fs : List (TextFragment α)) (hne : fs ≠ [])
    (hclose : ∀ a ∈ fs, ∀ b ∈ fs, |a.anchor_y - b.anchor_y| ≤ thr) :
    lineClusters thr fs = [fs.map TextFragment.text] := by
  cases fs with
  | nil => exact absurd rfl hne
  | cons f rest =>
    simp only [lineClusters]
    rw [lineClustersAux_all_close thr rest [f.text] f.anchor_y
      (fun g hg => hclose g (List.mem_cons_of_mem f hg) f (List.mem_cons_self f rest))]
    simp

/-- Claim C5: if the anchor_y values of the fragments are pairwise
within the y_threshold (10 units) of one another, process_ocr_result
puts all fragment texts on one single output line, and it does so for
every permutation of the input list (the fragments are sorted by
anchor_y first, so the result only depends on the input up to
permutation and stable ordering). -/
theorem c5_close_fragments_one_line {α : Type} [LinearOrderedRing α]
    (l l' : List (TextFragment α)) (hperm : l.Perm l') (hne : l ≠ [])
    (hclose : ∀ a ∈ l, ∀ b ∈ l, |a.anchor_y - b.anchor_y| ≤ 10) :
    lineClusters (10 : α) (sortFrags l') = [(sortFrags l').map TextFragment.text] ∧
    process_ocr_result l' =
      String.intercalate " " ((sortFrags l').map TextFragment.text) ∧
    ∀ f ∈ l, f.text ∈ (sortFrags l').map TextFragment.text := by
  have hmemsort : ∀ g : TextFragment α, g ∈ sortFrags l' ↔ g ∈ l' :=
    fun g => (List.perm_insertionSort _ l').mem_iff
  have hmem : ∀ g ∈ sortFrags l', g ∈ l :=
    fun g hg => hperm.mem_iff.mpr ((hmemsort g).mp hg)
  have hne' : sortFrags l' ≠ [] := by
    cases l with
    | nil => exact absurd rfl hne
    | cons a t =>
      intro hs
      have ha : a ∈ sortFrags l' :=
        (hmemsort a).mpr (hperm.mem_iff.mp (List.mem_cons_self a t))
      rw [hs] at ha
      exact List.not_mem_nil a ha
  have hc : ∀ a ∈ sortFrags l', ∀ b ∈ sortFrags l', |a.anchor_y - b.anchor_y| ≤ 10 :=
    fun a ha b hb => hclose a (hmem a ha) b (hmem b hb)
  have h1 := lineClusters_single (10 : α) (sortFrags l') hne' hc
  refine ⟨h1, ?_, ?_⟩
  · rw [process_ocr_result, h1, List.map_singleton, str_intercalate_singleton]
  · intro f hf
    exact List.mem_map_of_mem TextFragment.text
      ((hmemsort f).mpr (hperm.mem_iff.mp hf))

/-- Claim C5, witness: the fragments B at y = 12 and A at y = 10 are
within threshold of each other; presented in the permuted order
(A then B) they still form the single line with texts A, B. -/
theorem c5_witness :
    lineClusters (10 : ℤ)
        (sortFrags [(⟨"A", 0, 10⟩ : TextFragment ℤ), ⟨"B", 0, 12⟩]) =
      [(sortFrags [(⟨"A", 0, 10⟩ : TextFragment ℤ), ⟨"B", 0, 12⟩]).map
        TextFragment.text] ∧
    process_ocr_result [(⟨"A", 0, 10⟩ : TextFragment ℤ), ⟨"B", 0, 12⟩] =
      String.intercalate " "
        ((sortFrags [(⟨"A", 0, 10⟩ : TextFragment ℤ), ⟨"B", 0, 12⟩]).map
          TextFragment.text) ∧
    ∀ f ∈ [(⟨"B", 0, 12⟩ : TextFragment ℤ), ⟨"A", 0, 10⟩],
      f.text ∈ (sortFrags [(⟨"A", 0, 10⟩ : TextFragment ℤ), ⟨"B", 0, 12⟩]).map
        TextFragment.text :=
  c5_close_fragments_one_line
    [(⟨"B", 0, 12⟩ : TextFragment ℤ), ⟨"A", 0, 10⟩]
    [(⟨"A", 0, 10⟩ : TextFragment ℤ), ⟨"B", 0, 12⟩]
    (by decide) (by decide) (by decide)

lemma count_le_join (tokenizer : Option (String → Nat))
    (hmono : ∀ s t : String, count_tokens tokenizer s ≤ count_tokens tokenizer (s ++ t) ∧
      count_tokens tokenizer t ≤ count_tokens tokenizer (s ++ t)) :
    ∀ (l : List String), ∀ q ∈ l,
      count_tokens tokenizer q ≤ count_tokens tokenizer (String.join l) := by
  intro l
  induction l with
  | nil => intro q hq; exact absurd hq (List.not_mem_nil q)
  | cons a t ih =>
    intro q hq
    rw [str_join_cons]
    rcases List.mem_cons.mp hq with h | h
    · subst h; exact (hmono q (String.join t)).1
    · exact le_trans (ih q h) (hmono a (String.join t)).2

lemma chunkLoop_eq_join (tokenizer : Option (String → Nat)) (limit : Int) :
    ∀ (ps current : List String), (∀ q ∈ current, q ≠ "") →
      chunkLoop tokenizer limit ps (String.join current) =
        (chunkPagesLoop tokenizer limit ps current).map String.join := by
  intro ps
  induction ps with
  | nil =>
    intro current hcur
    cases current with
    | nil => simp [chunkLoop, chunkPagesLoop, str_join_nil]
    | cons q t =>
      have hne : String.join (q :: t) ≠ "" :=
        str_join_ne_empty_of_head t (hcur q (List.mem_cons_self q t))
      simp [chunkLoop, chunkPagesLoop, hne]
  | cons p pages ih =>
    intro current hcur
    by_cases hblank : pyStrip p = ""
    · simp only [chunkLoop, chunkPagesLoop, if_pos hblank]
      exact ih current hcur
    · have hp : p ≠ "" := by
        intro h; apply hblank; rw [h]; rfl
      simp only [chunkLoop, chunkPagesLoop, if_neg hblank]
      by_cases hfit : (count_tokens tokenizer (String.join current ++ p) : Int) < limit
      · rw [if_pos hfit, if_pos hfit, ← str_join_append_singleton]
        refine ih (current ++ [p]) ?_
        intro q hq
        rcases List.mem_append.mp hq with h | h
        · exact hcur q h
        · rw [List.mem_singleton.mp h]; exact hp
      · rw [if_neg hfit, if_neg hfit]
        have hsing := ih [p] (by intro x hx; rw [List.mem_singleton.mp hx]; exact hp)
        rw [str_join_singleton] at hsing
        cases current with
        | nil =>
          rw [str_join_nil, if_pos rfl, if_pos rfl]
          exact hsing
        | cons q t =>
          have hne : String.join (q :: t) ≠ "" :=
            str_join_ne_empty_of_head t (hcur q (List.mem_cons_self q t))
          rw [if_neg hne, if_neg (List.cons_ne_nil q t), hsing, List.map_cons]

lemma chunkPagesLoop_flatten (tokenizer : Option (String → Nat)) (limit : Int) :
    ∀ (ps current : List String),
      (chunkPagesLoop tokenizer limit ps current).flatten =
        current ++ ps.filter (fun p => pyStrip p ≠ "") := by
  intro ps
  induction ps with
  | nil =>
    intro current
    by_cases h : current = []
    · subst h; simp [chunkPagesLoop]
    · simp [chunkPagesLoop, h]
  | cons p pages ih =>
    intro current
    by_cases hblank : pyStrip p = ""
    · simp only [chunkPagesLoop, if_pos hblank]
      rw [ih current]
      simp [List.filter_cons, hblank]
    · simp only [chunkPagesLoop, if_neg hblank]
      by_cases hfit : (count_tokens tokenizer (String.join current ++ p) : Int) < limit
      · rw [if_pos hfit, ih (current ++ [p])]
        simp [List.filter_cons, hblank]
      · rw [if_neg hfit]
        cases current with
        | nil =>
          rw [if_pos rfl, ih [p]]
          simp [List.filter_cons, hblank]
        | cons q t =>
          rw [if_neg (List.cons_ne_nil q t), List.flatten_cons, ih [p]]
          simp [List.filter_cons, hblank]

lemma chunk_emit_props (tokenizer : Option (String → Nat)) (limit : Int)
    {current : List String} (hne : current ≠ [])
    (inv1 : current = [] ∨ (count_tokens tokenizer (String.join current) : Int) < limit ∨
      ∃ p, current = [p])
    (inv2 : ∀ q ∈ current, limit ≤ (count_tokens tokenizer q : Int) → current = [q]) :
    ((count_tokens tokenizer (String.join current) : Int) < limit ∨
      ∃ p, current = [p] ∧ limit ≤ (count_tokens tokenizer p : Int)) ∧
    (∀ p ∈ current, limit ≤ (count_tokens tokenizer p : Int) → current = [p]) := by
  refine ⟨?_, inv2⟩
  rcases inv1 with h | h | ⟨p, rfl⟩
  · exact absurd h hne
  · exact Or.inl h
  · by_cases hp : (count_tokens tokenizer (String.join [p]) : Int) < limit
    · exact Or.inl hp
    · rw [str_join_singleton] at hp
      exact Or.inr ⟨p, rfl, not_lt.mp hp⟩

lemma chunkPagesLoop_inv (tokenizer : Option (String → Nat)) (limit : Int)
    (hmono : ∀ s t : String, count_tokens tokenizer s ≤ count_tokens tokenizer (s ++ t) ∧
      count_tokens tokenizer t ≤ count_tokens tokenizer (s ++ t)) :
    ∀ (ps current : List String),
      (current = [] ∨ (count_tokens tokenizer (String.join current) : Int) < limit ∨
        ∃ p, current = [p]) →
      (∀ q ∈ current, limit ≤ (count_tokens tokenizer q : Int) → current = [q]) →
      ∀ pc ∈ chunkPagesLoop tokenizer limit ps current,
        ((count_tokens tokenizer (String.join pc) : Int) < limit ∨
          ∃ p, pc = [p] ∧ limit ≤ (count_tokens tokenizer p : Int)) ∧
        (∀ p ∈ pc, limit ≤ (count_tokens tokenizer p : Int) → pc = [p]) := by
  intro ps
  induction ps with
  | nil =>
    intro current inv1 inv2 pc hpc
    by_cases h : current = []
    · subst h; simp [chunkPagesLoop] at hpc
    · simp only [chunkPagesLoop, if_neg h] at hpc
      rw [List.mem_singleton] at hpc
      subst hpc
      exact chunk_emit_props tokenizer limit h inv1 inv2
  | cons p pages ih =>
    intro current inv1 inv2 pc hpc
    by_cases hblank : pyStrip p = ""
    · simp only [chunkPagesLoop, if_pos hblank] at hpc
      exact ih current inv1 inv2 pc hpc
    · simp only [chunkPagesLoop, if_neg hblank] at hpc
      by_cases hfit : (count_tokens tokenizer (String.join current ++ p) : Int) < limit
      · rw [if_pos hfit] at hpc
        refine ih (current ++ [p]) ?_ ?_ pc hpc
        · right; left
          rw [str_join_append_singleton]
          exact hfit
        · intro q hq hbig
          exfalso
          have hle := count_le_join tokenizer hmono (current ++ [p]) q hq
          rw [str_join_append_singleton] at hle
          omega
      · rw [if_neg hfit] at hpc
        cases current with
        | nil =>
          rw [if_pos rfl] at hpc
          refine ih [p] (Or.inr (Or.inr ⟨p, rfl⟩)) ?_ pc hpc
          intro q hq _
          rw [List.mem_singleton.mp hq]
        | cons a t =>
          rw [if_neg (List.cons_ne_nil a t)] at hpc
          rcases List.mem_cons.mp hpc with rfl | hpc'
          · exact chunk_emit_props tokenizer limit (List.cons_ne_nil a t) inv1 inv2
          · refine ih [p] (Or.inr (Or.inr ⟨p, rfl⟩)) ?_ pc hpc'
            intro q hq _
            rw [List.mem_singleton.mp hq]

lemma chunk_text_eq_join_pages (tokenizer : Option (String → Nat))
    (context_window : Int) (text : String) :
    chunk_text tokenizer context_window text =
      (chunkTextPages tokenizer context_window text).map String.join :=
  chunkLoop_eq_join tokenizer (context_window - 1000) (pySplit text "-------\n") []
    (fun q hq => absurd hq (List.not_mem_nil q))

/-- Monotonicity of the fallback token estimate: appending text on
either side cannot lower the count. -/
lemma count_tokens_none_mono :
    ∀ s t : String, count_tokens none s ≤ count_tokens none (s ++ t) ∧
      count_tokens none t ≤ count_tokens none (s ++ t) := by
  intro s t
  constructor <;>
  · simp only [count_tokens, String.length_append]
    apply Nat.div_le_div_right
    omega

/-- Claim C1: provided the token counter cannot shrink under
concatenation (true of the byte-fallback counter, see
count_tokens_none_mono), every chunk of chunk_text stays below
context_window − 1000 tokens except a chunk made of exactly one page
whose own count already reaches that limit, and a page at or above the
limit is always emitted as its own chunk, never merged with other
pages.  The first conjunct identifies the chunk strings with the joins
of their underlying page lists. -/
theorem c1_chunk_token_bound (tokenizer : Option (String → Nat))
    (context_window : Int) (text : String)
    (hmono : ∀ s t : String, count_tokens tokenizer s ≤ count_tokens tokenizer (s ++ t) ∧
      count_tokens tokenizer t ≤ count_tokens tokenizer (s ++ t)) :
    chunk_text tokenizer context_window text =
      (chunkTextPages tokenizer context_window text).map String.join ∧
    ∀ pc ∈ chunkTextPages tokenizer context_window text,
      ((count_tokens tokenizer (String.join pc) : Int) < context_window - 1000 ∨
        ∃ p, pc = [p] ∧ context_window - 1000 ≤ (count_tokens tokenizer p : Int)) ∧
      (∀ p ∈ pc, context_window - 1000 ≤ (count_tokens tokenizer p : Int) → pc = [p]) := by
  refine ⟨chunk_text_eq_join_pages tokenizer context_window text, ?_⟩
  intro pc hpc
  exact chunkPagesLoop_inv tokenizer (context_window - 1000) hmono
    (pySplit text "-------\n") [] (Or.inl rfl)
    (fun q hq _ => absurd hq (List.not_mem_nil q)) pc hpc

/-- Claim C1, witness: with the fallback counter and context_window =
1000 (so the limit is 0) every page is oversized, and each of the two
pages of the input is emitted as its own chunk. -/
theorem c1_witness :
    chunk_text none 1000 "ab-------\ncd" =
      (chunkTextPages none 1000 "ab-------\ncd").map String.join ∧
    ∀ pc ∈ chunkTextPages none 1000 "ab-------\ncd",
      ((count_tokens none (String.join pc) : Int) < 1000 - 1000 ∨
        ∃ p, pc = [p] ∧ 1000 - 1000 ≤ (count_tokens none p : Int)) ∧
      (∀ p ∈ pc, 1000 - 1000 ≤ (count_tokens none p : Int) → pc = [p]) :=
  c1_chunk_token_bound none 1000 "ab-------\ncd" count_tokens_none_mono

/-- Claim C2 (amended): the pages underlying the chunks of chunk_text,
concatenated in order, are exactly the non-blank parts of splitting
the input at the delimiter, in their original order — no non-blank
page is dropped, duplicated, or reordered; whitespace-only and empty
parts of the split are skipped by the loop and belong to no chunk. -/
theorem c2_chunks_preserve_pages (tokenizer : Option (String → Nat))
    (context_window : Int) (text : String) :
    chunk_text tokenizer context_window text =
      (chunkTextPages tokenizer context_window text).map String.join ∧
    (chunkTextPages tokenizer context_window text).flatten =
      (pySplit text "-------\n").filter (fun p => pyStrip p ≠ "") := by
  refine ⟨chunk_text_eq_join_pages tokenizer context_window text, ?_⟩
  rw [chunkTextPages, chunkPagesLoop_flatten tokenizer (context_window - 1000)
    (pySplit text "-------\n") []]
  rfl

/-- Claim C2, counterexample to the claim as stated: splitting
"a-------\n " yields the two parts "a" and " ", but the whitespace-only
part " " is skipped, so the pages underlying the chunks are ["a"] and
do not reproduce the full split sequence. -/
theorem c2_counterexample :
    pySplit "a-------\n " "-------\n" = ["a", " "] ∧
    (chunkTextPages none 100000 "a-------\n ").flatten = ["a"] ∧
    (chunkTextPages none 100000 "a-------\n ").flatten ≠
      pySplit "a-------\n " "-------\n" := by decide

lemma call_llm_api_fst (price_per_1m_tokens : ℚ) (net : NetOutcome) (s : UsageStats) :
    (call_llm_api price_per_1m_tokens net s).1 = apiResult price_per_1m_tokens net := by
  cases net with
  | timeout => rfl
  | requestError m => rfl
  | response r =>
    by_cases h : r.status_code = 200 <;> simp [call_llm_api, apiResult, h]

lemma processLoop_step_ok (strategy : ErrorStrategy) (price_per_1m_tokens : ℚ)
    (net : String → NetOutcome) (topic page : String) (pages : List String) (i : Nat)
    (written : String) (s : UsageStats) (c : String)
    (hok : apiResult price_per_1m_tokens (net (create_prompt page topic)) = .ok c) :
    processLoop strategy price_per_1m_tokens net topic (page :: pages) i written s =
      processLoop strategy price_per_1m_tokens net topic pages (i + 1)
        (written ++ process_single_page_note i page c)
        (call_llm_api price_per_1m_tokens (net (create_prompt page topic)) s).2 := by
  have h1 : (call_llm_api price_per_1m_tokens (net (create_prompt page topic)) s).1 =
      .ok c := by
    rw [call_llm_api_fst]; exact hok
  simp only [processLoop, process_single_page, h1, Except.map]

lemma processLoop_step_error_abort (price_per_1m_tokens : ℚ) (net : String → NetOutcome)
    (topic page : String) (pages : List String) (i : Nat) (written : String)
    (s : UsageStats) (e : String)
    (herr : apiResult price_per_1m_tokens (net (create_prompt page topic)) = .error e) :
    processLoop .abort price_per_1m_tokens net topic (page :: pages) i written s =
      (written, (call_llm_api price_per_1m_tokens (net (create_prompt page topic)) s).2,
        some ("由于错误策略设置为\x27abort\x27，停止处理。最后错误: " ++ e)) := by
  have h1 : (call_llm_api price_per_1m_tokens (net (create_prompt page topic)) s).1 =
      .error e := by
    rw [call_llm_api_fst]; exact herr
  simp only [processLoop, process_single_page, h1, Except.map]

lemma processLoop_step_error_skip (price_per_1m_tokens : ℚ) (net : String → NetOutcome)
    (topic page : String) (pages : List String) (i : Nat) (written : String)
    (s : UsageStats) (e : String)
    (herr : apiResult price_per_1m_tokens (net (create_prompt page topic)) = .error e) :
    processLoop .skip price_per_1m_tokens net topic (page :: pages) i written s =
      processLoop .skip price_per_1m_tokens net topic pages (i + 1)
        (written ++ errorNote i page e)
        (call_llm_api price_per_1m_tokens (net (create_prompt page topic)) s).2 := by
  have h1 : (call_llm_api price_per_1m_tokens (net (create_prompt page topic)) s).1 =
      .error e := by
    rw [call_llm_api_fst]; exact herr
  simp only [processLoop, process_single_page, h1, Except.map]

lemma apiResult_error_of_not_ok {price_per_1m_tokens : ℚ} {n : NetOutcome}
    (h : (apiResult price_per_1m_tokens n).isOk = false) :
    ∃ e, apiResult price_per_1m_tokens n = .error e := by
  cases happ : apiResult price_per_1m_tokens n with
  | ok c => rw [happ] at h; simp [Except.isOk, Except.toBool] at h
  | error e => exact ⟨e, rfl⟩

lemma processLoop_abort_prefix (price_per_1m_tokens : ℚ) (net : String → NetOutcome)
    (topic : String) :
    ∀ (pre contents : List String),
      List.Forall₂ (fun p c => ∃ r, net (create_prompt p topic) = NetOutcome.response r ∧
        r.status_code = 200 ∧ r.content = c) pre contents →
      ∀ (ps : List String) (i : Nat) (written : String) (s : UsageStats),
        ∃ s', processLoop .abort price_per_1m_tokens net topic (pre ++ ps) i written s =
          processLoop .abort price_per_1m_tokens net topic ps (i + pre.length)
            (written ++ successNotesFrom i pre contents) s' := by
  intro pre contents hf
  induction hf with
  | nil =>
    intro ps i written s
    exact ⟨s, by simp [successNotesFrom, String.append_empty]⟩
  | @cons p c pre' contents' hpc htail ih =>
    intro ps i written s
    obtain ⟨r, hr, h200, hcontent⟩ := hpc
    have hok : apiResult price_per_1m_tokens (net (create_prompt p topic)) = .ok c := by
      rw [hr]; simp [apiResult, call_llm_api, h200, hcontent]
    rw [List.cons_append, processLoop_step_ok .abort price_per_1m_tokens net topic p
      (pre' ++ ps) i written s c hok]
    obtain ⟨s', hs'⟩ := ih ps (i + 1) (written ++ process_single_page_note i p c)
      (call_llm_api price_per_1m_tokens (net (create_prompt p topic)) s).2
    refine ⟨s', ?_⟩
    rw [hs']
    have hlen : i + 1 + pre'.length = i + (p :: pre').length := by
      simp [List.length_cons]; omega
    rw [hlen]
    simp only [successNotesFrom, String.append_assoc]

/-- Claim C6: under the abort strategy, when the model call for the
page after `pre` raises while all pages of `pre` succeed (with the
given response contents), the run ends with exactly the completed
notes of the pages before the failure written, no section of any kind
for the failing page or any later page, the raised abort error
surfaced, and a non-zero exit status. -/
theorem c6_abort_stops_at_failing_page (price_per_1m_tokens t0 : ℚ)
    (net : String → NetOutcome) (topic text : String)
    (pre contents post : List String) (fk : String)
    (hsplit : splitPagesMarker text = pre ++ fk :: post)
    (hpre : List.Forall₂ (fun p c => ∃ r, net (create_prompt p topic) = NetOutcome.response r ∧
      r.status_code = 200 ∧ r.content = c) pre contents)
    (hfail : (apiResult price_per_1m_tokens (net (create_prompt fk topic))).isOk = false) :
    (process_file .abort price_per_1m_tokens net topic t0 text).1 =
      successNotesFrom 1 pre contents ∧
    (process_file .abort price_per_1m_tokens net topic t0 text).2.2.isSome = true ∧
    mainExitCode (process_file .abort price_per_1m_tokens net topic t0 text) = 1 := by
  obtain ⟨e, he⟩ := apiResult_error_of_not_ok hfail
  obtain ⟨s', hs'⟩ := processLoop_abort_prefix price_per_1m_tokens net topic pre contents
    hpre (fk :: post) 1 "" (initUsageStats t0)
  have hrun : process_file .abort price_per_1m_tokens net topic t0 text =
      ("" ++ successNotesFrom 1 pre contents,
        (call_llm_api price_per_1m_tokens (net (create_prompt fk topic)) s').2,
        some ("由于错误策略设置为\x27abort\x27，停止处理。最后错误: " ++ e)) := by
    rw [process_file, hsplit, hs', processLoop_step_error_abort price_per_1m_tokens net
      topic fk post (1 + pre.length) ("" ++ successNotesFrom 1 pre contents) s' e he]
  rw [hrun]
  exact ⟨rfl, rfl, rfl⟩

/-- Claim C6, witness: a single-page document whose only model call
times out under the abort strategy: nothing is written and the run
exits non-zero. -/
theorem c6_witness :
    (process_file .abort 0 (fun _ => NetOutcome.timeout) "t" 0 "### Page 1\n\nA").1 =
      successNotesFrom 1 [] [] ∧
    (process_file .abort 0 (fun _ => NetOutcome.timeout) "t" 0 "### Page 1\n\nA").2.2.isSome
      = true ∧
    mainExitCode (process_file .abort 0 (fun _ => NetOutcome.timeout) "t" 0
      "### Page 1\n\nA") = 1 :=
  c6_abort_stops_at_failing_page 0 0 (fun _ => NetOutcome.timeout) "t" "### Page 1\n\nA"
    [] [] [] "1\n\nA" (by decide) List.Forall₂.nil rfl

/-- Claim C7: under the skip strategy (the default), a page whose
model call returns a non-200 status gets a markdown block holding its
original text and a 内容解读 section whose content is 生成失败: followed
by the API failure message, the usage statistics are unchanged, and
the loop continues with all remaining pages. -/
theorem c7_skip_writes_failure_and_continues (price_per_1m_tokens : ℚ)
    (net : String → NetOutcome) (topic page : String) (pages : List String) (i : Nat)
    (written : String) (s : UsageStats) (r : HttpResponse)
    (hresp : net (create_prompt page topic) = NetOutcome.response r)
    (hstatus : r.status_code ≠ 200) :
    processLoop .skip price_per_1m_tokens net topic (page :: pages) i written s =
      processLoop .skip price_per_1m_tokens net topic pages (i + 1)
        (written ++ errorNote i page
          ("API调用失败 (状态码: " ++ toString r.status_code ++ "): " ++ r.text)) s ∧
    errorNote i page
        ("API调用失败 (状态码: " ++ toString r.status_code ++ "): " ++ r.text) =
      "# Page " ++ toString i ++ "\n\n" ++ "## 原文\n" ++ (page ++ "\n\n") ++
        "## 内容解读\n" ++ ("生成失败: " ++
          ("API调用失败 (状态码: " ++ toString r.status_code ++ "): " ++ r.text) ++
          "\n\n") ∧
    defaultErrorStrategy = ErrorStrategy.skip := by
  refine ⟨?_, rfl, rfl⟩
  have herr : apiResult price_per_1m_tokens (net (create_prompt page topic)) =
      .error ("API调用失败 (状态码: " ++ toString r.status_code ++ "): " ++ r.text) := by
    rw [hresp]; simp [apiResult, call_llm_api, hstatus]
  have hstats : (call_llm_api price_per_1m_tokens (net (create_prompt page topic)) s).2
      = s := by
    rw [hresp]; simp [call_llm_api, hstatus]
  rw [processLoop_step_error_skip price_per_1m_tokens net topic page pages i written s
    _ herr, hstats]

/-- Claim C7, witness: a concrete 500 response on the first of two
pages appends the failure block for that page and continues with the
second page, leaving the statistics untouched. -/
theorem c7_witness :
    processLoop .skip 0 (fun _ => NetOutcome.response ⟨500, "", ⟨0, 0, 0⟩, "ISE"⟩) "t"
        ["A", "B"] 1 "" (initUsageStats 0) =
      processLoop .skip 0 (fun _ => NetOutcome.response ⟨500, "", ⟨0, 0, 0⟩, "ISE"⟩) "t"
        ["B"] (1 + 1)
        ("" ++ errorNote 1 "A"
          ("API调用失败 (状态码: " ++ toString (500 : Nat) ++ "): " ++ "ISE"))
        (initUsageStats 0) ∧
    errorNote 1 "A" ("API调用失败 (状态码: " ++ toString (500 : Nat) ++ "): " ++ "ISE") =
      "# Page " ++ toString (1 : Nat) ++ "\n\n" ++ "## 原文\n" ++ ("A" ++ "\n\n") ++
        "## 内容解读\n" ++ ("生成失败: " ++
          ("API调用失败 (状态码: " ++ toString (500 : Nat) ++ "): " ++ "ISE") ++
          "\n\n") ∧
    defaultErrorStrategy = ErrorStrategy.skip :=
  c7_skip_writes_failure_and_continues 0
    (fun _ => NetOutcome.response ⟨500, "", ⟨0, 0, 0⟩, "ISE"⟩) "t" "A" ["B"] 1 ""
    (initUsageStats 0) ⟨500, "", ⟨0, 0, 0⟩, "ISE"⟩ rfl (by decide)

lemma processLoop_skip_closed (price_per_1m_tokens : ℚ) (net : String → NetOutcome)
    (topic : String) :
    ∀ (pages : List String) (i : Nat) (written : String) (s : UsageStats),
      (processLoop .skip price_per_1m_tokens net topic pages i written s).1 =
        written ++ skipNotesFrom price_per_1m_tokens net topic i pages := by
  intro pages
  induction pages with
  | nil => intro i written s; simp [processLoop, skipNotesFrom, String.append_empty]
  | cons p ps ih =>
    intro i written s
    cases happ : apiResult price_per_1m_tokens (net (create_prompt p topic)) with
    | ok c =>
      rw [processLoop_step_ok .skip price_per_1m_tokens net topic p ps i written s c happ,
        ih]
      simp [skipNotesFrom, skipNote, happ, String.append_assoc]
    | error e =>
      rw [processLoop_step_error_skip price_per_1m_tokens net topic p ps i written s e
        happ, ih]
      simp [skipNotesFrom, skipNote, happ, String.append_assoc]

/-- Claim C10 (amended): process_file numbers output sections by
1-based position in its filtered page list — the page at position i is
written under heading `# Page i` whatever numeral followed the
original marker — but the original numeral is not discarded: it
remains at the start of the page text kept by the split (second
conjunct: the units for pages numbered 3 and 7 still start with "3"
and "7" while their positions are 1 and 2). -/
theorem c10_positional_page_numbering (price_per_1m_tokens t0 : ℚ)
    (net : String → NetOutcome) (topic text : String) :
    (process_file .skip price_per_1m_tokens net topic t0 text).1 =
      skipNotesFrom price_per_1m_tokens net topic 1 (splitPagesMarker text) ∧
    splitPagesMarker "### Page 3\n\nfoo\n\n### Page 7\n\nbar" =
      ["3\n\nfoo", "7\n\nbar"] := by
  constructor
  · rw [process_file, processLoop_skip_closed]
    rfl
  · decide

/-- Claim C10, counterexample to the claim as stated: for the page
marked `### Page 3`, the section heading is positional (`# Page 1`)
but the numeral 3 is not discarded — it is carried into the 原文
section of the output, which therefore differs from what discarding
the numeral would produce. -/
theorem c10_counterexample :
    (process_file .skip 0 (fun _ => NetOutcome.response ⟨200, "R", ⟨0, 0, 0⟩, ""⟩) "T" 0
        "### Page 3\n\nfoo").1 =
      "# Page 1\n\n## 原文\n\n3\n\nfoo\n\n\n## 内容解读\n\nR\n\n" ∧
    (process_file .skip 0 (fun _ => NetOutcome.response ⟨200, "R", ⟨0, 0, 0⟩, ""⟩) "T" 0
        "### Page 3\n\nfoo").1 ≠
      "# Page 1\n\n## 原文\n\nfoo\n\n\n## 内容解读\n\nR\n\n" := by decide

end PdfInterpreter
